import Mathlib

/-!
Verification of the numeric core of the sdg-developments-system dashboard
components: the forecast accuracy metrics (`calculateMAPE`, `calculateRMSE`)
and chart data preparation (`prepareChartData`) from
`src/components/forecast-accuracy-chart.tsx`, and the report statistics
(`calculateStats`) from `src/components/report-dialog.tsx`.

Numbers are modelled as rationals (the JS code performs field arithmetic on
`number`s; JS division by zero, which yields Infinity or NaN, corresponds to
the rational convention `x / 0 = 0` and is flagged where it matters).
JavaScript `Date` values are modelled by (year, month 0-11, day-of-month),
which is the part of a `Date` that the chart code observes: labels read the
month and the 2-digit year, and `setMonth` arithmetic reads the day.
-/

/-- A JavaScript `Date`, reduced to the fields the chart code uses:
`getFullYear()`, `getMonth()` (0 = January .. 11 = December), `getDate()`. -/
structure JSDate where
  year : Int
  month : Nat
  day : Nat
  deriving DecidableEq

/-- A row of `material_history` / `labor_history` as consumed by the chart:
`created_at` timestamp and `cost`. -/
structure HistoricalPoint where
  created_at : JSDate
  cost : ℚ
  deriving DecidableEq

/-- One element of the combined chart series produced by `prepareChartData`:
`{ date, historical, forecast }`, with `null` fields modelled as `none`.
The `date` label is the result of `toLocaleDateString("en-US",
{month: "short", year: "2-digit"})`, modelled as the pair
(month number 0-11, year mod 100). -/
structure CombinedPoint where
  date : Nat × Int
  historical : Option ℚ
  forecast : Option ℚ
  deriving DecidableEq

/-- Number of days in a month (`month` is 0-based as in JS), with the
Gregorian leap-year rule used by JavaScript `Date`. -/
def daysInMonth (year : Int) (month : Nat) : Nat :=
  if month = 1 then
    if year % 4 = 0 ∧ (year % 100 ≠ 0 ∨ year % 400 = 0) then 29 else 28
  else if month = 3 ∨ month = 5 ∨ month = 8 ∨ month = 10 then 30
  else 31

/-- JavaScript `d.setMonth(d.getMonth() + 1)`: increment the month with year
carry, then normalize: a day-of-month exceeding the length of the target
month overflows into the following month (e.g. Jan 31 + 1 month = Feb 31 =
Mar 2 or 3).  One carry step suffices because a JS date has day ≤ 31 and
every month has at least 28 days. -/
def addOneMonthJS (d : JSDate) : JSDate :=
  let y := if d.month = 11 then d.year + 1 else d.year
  let m := if d.month = 11 then 0 else d.month + 1
  if d.day ≤ daysInMonth y m then ⟨y, m, d.day⟩
  else
    let y2 := if m = 11 then y + 1 else y
    let m2 := if m = 11 then 0 else m + 1
    ⟨y2, m2, d.day - daysInMonth y m⟩

/-- `date.toLocaleDateString("en-US", { month: "short", year: "2-digit" })`
(e.g. "Mar 24"), modelled as the pair (month 0-11, year mod 100). -/
def formatShortMonthYear (d : JSDate) : Nat × Int :=
  (d.month, d.year % 100)

/-- JavaScript `arr.slice(-n)` for a `Nat` argument `n`:
the last `n` elements, the whole array when `n = 0` (since `-0 === 0`)
or when `n` exceeds the length. -/
def sliceNeg (l : List α) (n : Nat) : List α :=
  if n = 0 then l else l.drop (l.length - n)

/-- `calculateMAPE` from `forecast-accuracy-chart.tsx` (lines 76-96).
The source iterates `lastHistoricalPoints` with a guard
`index < forecastData.forecast.length` and accumulates `totalError`/`count`
over pairs whose `actual` is nonzero; the guarded indexed iteration is the
zip of the two lists (when the forecast is nonempty the sliced list is no
longer than the forecast, and when it is empty the guard rejects every
index), and the accumulation is the sum over the filtered pairs.  The early
return fires on `!historyData.length`; `!forecastData.forecast` cannot fire
here because the forecast field is modelled as an always-present array, and
an empty array is truthy in JS. -/
def calculateMAPE (historyData : List HistoricalPoint) (forecast : List ℚ) : ℚ :=
  if historyData.length = 0 then 0
  else
    let lastHistoricalPoints := sliceNeg historyData forecast.length
    let valid := (lastHistoricalPoints.zip forecast).filter
      (fun p => decide (p.1.cost ≠ 0))
    let totalError := (valid.map (fun p => |(p.1.cost - p.2) / p.1.cost| * 100)).sum
    if 0 < valid.length then totalError / (valid.length : ℚ) else 0

/-- `calculateRMSE` from `forecast-accuracy-chart.tsx` (lines 98-115): same
slicing and guarded iteration as `calculateMAPE`, no zero-skip, summing
`Math.pow(actual - forecast, 2)` and taking `Math.sqrt` of the mean. -/
noncomputable def calculateRMSE (historyData : List HistoricalPoint) (forecast : List ℚ) : ℝ :=
  if historyData.length = 0 then 0
  else
    let pairs := (sliceNeg historyData forecast.length).zip forecast
    let sumSquaredErrors := (pairs.map (fun p => (p.1.cost - p.2) ^ 2)).sum
    if 0 < pairs.length then
      Real.sqrt ((sumSquaredErrors / (pairs.length : ℚ) : ℚ) : ℝ)
    else 0

/-- The forecast half of `prepareChartData` (lines 134-146): for each
forecast value, advance the date cursor by one month via
`lastDate.setMonth(lastDate.getMonth() + 1)` and emit
`{ date: label(cursor), historical: null, forecast: value }`. -/
def forecastPoints (lastDate : JSDate) : List ℚ → List CombinedPoint
  | [] => []
  | v :: rest =>
    let next := addOneMonthJS lastDate
    { date := formatShortMonthYear next, historical := none, forecast := some v }
      :: forecastPoints next rest

/-- `prepareChartData` from `forecast-accuracy-chart.tsx` (lines 117-149).
One point per historical row, then the forecast points from a cursor seeded
with the last historical timestamp, or with `new Date()` (the current date,
passed here explicitly as `now`) when there is no history.  The source's
guard `forecastData && forecastData.forecast` always passes in this model
because the forecast array is always present (an empty array is truthy). -/
def prepareChartData (now : JSDate) (historyData : List HistoricalPoint)
    (forecast : List ℚ) : List CombinedPoint :=
  let histPart := historyData.map (fun item =>
    { date := formatShortMonthYear item.created_at
      historical := some item.cost
      forecast := (none : Option ℚ) })
  let lastDate := match historyData.getLast? with
    | some item => item.created_at
    | none => now
  histPart ++ forecastPoints lastDate forecast

/-- A row of `historicalData` / item of `forecastData` as consumed by the
report dialog: only the `price` field is read. -/
structure PricePoint where
  price : ℚ
  deriving DecidableEq

/-- The statistics record produced by `calculateStats` in
`report-dialog.tsx`. -/
structure ReportStats where
  lastHistorical : ℚ
  lastForecast : ℚ
  percentChange : ℚ
  historicalAvg : ℚ
  forecastAvg : ℚ
  deriving DecidableEq

/-- `calculateStats` from `report-dialog.tsx` (lines 126-140).  Returns
`null` (here `none`) iff `!historicalData.length`,
`forecastSeries.length === 0`, or `forecastedCost === null`.  The
`reduce((sum, item) => sum + item.price, 0)` accumulations are the list
sums.  `historicalData[historicalData.length - 1]?.price || 0` is the last
price, with `|| 0` mapping an absent value (impossible here) or a zero
price to 0 — the identity on rationals once the list is nonempty. -/
def calculateStats (historicalData : List PricePoint) (forecastSeries : List ℚ)
    (forecastedCost : Option ℚ) : Option ReportStats :=
  if historicalData.length = 0 ∨ forecastSeries.length = 0 ∨ forecastedCost = none then
    none
  else
    let historicalAvg := (historicalData.map (fun item => item.price)).sum
      / (historicalData.length : ℚ)
    let forecastAvg := forecastSeries.sum / (forecastSeries.length : ℚ)
    let percentChange := (forecastAvg - historicalAvg) / historicalAvg * 100
    some { lastHistorical := ((historicalData.getLast?).map (fun item => item.price)).getD 0
           lastForecast := forecastedCost.getD 0
           percentChange := percentChange
           historicalAvg := historicalAvg
           forecastAvg := forecastAvg }

/-- Modelled from the spec (§4.1): the last `min(len(historical),
len(forecast))` elements of the historical series, preserving order. -/
def specTail (hist : List HistoricalPoint) (fc : List ℚ) : List HistoricalPoint :=
  hist.drop (hist.length - min hist.length fc.length)

/-- Modelled from the spec (§4.1): MAPE as the arithmetic mean of
`|actual - predicted| / actual * 100` over the tail-aligned pairs whose
actual is nonzero, and 0 when no valid pair remains. -/
def specMAPE (hist : List HistoricalPoint) (fc : List ℚ) : ℚ :=
  let valid := ((specTail hist fc).zip fc).filter (fun p => decide (p.1.cost ≠ 0))
  if valid.length = 0 then 0
  else (valid.map (fun p => |p.1.cost - p.2| / p.1.cost * 100)).sum / (valid.length : ℚ)

/-- Modelled from the spec (§4.1): RMSE as `sqrt(mean of
(actual - predicted)^2)` over the tail-aligned pairs (no zero-skip), and 0
when there is no pair. -/
noncomputable def specRMSE (hist : List HistoricalPoint) (fc : List ℚ) : ℝ :=
  let pairs := (specTail hist fc).zip fc
  if pairs.length = 0 then 0
  else Real.sqrt (((pairs.map (fun p => (p.1.cost - p.2) ^ 2)).sum
    / (pairs.length : ℚ) : ℚ) : ℝ)

/-- Arithmetic mean of a list of rationals (spec §4.3). -/
def listMean (l : List ℚ) : ℚ := l.sum / (l.length : ℚ)

/-- Arithmetic mean of the prices of a list of price points (spec §4.3,
`historicalAvg`). -/
def histMean (hd : List PricePoint) : ℚ := listMean (hd.map (fun item => item.price))

/-- The label `l2` names the calendar month immediately after the one named
by the label `l1` (labels are (month 0-11, year mod 100) pairs). -/
def labelNextMonth (l1 l2 : Nat × Int) : Prop :=
  l2.1 = (l1.1 + 1) % 12 ∧ l2.2 = (if l1.1 = 11 then (l1.2 + 1) % 100 else l1.2)

instance (l1 l2 : Nat × Int) : Decidable (labelNextMonth l1 l2) := by
  unfold labelNextMonth
  exact inferInstance

/-! ### Helper lemmas -/

theorem slice_zip (hist : List HistoricalPoint) (fc : List ℚ) :
    (sliceNeg hist fc.length).zip fc = (specTail hist fc).zip fc := by
  rcases fc with _ | ⟨v, rest⟩
  · simp
  · unfold sliceNeg specTail
    rw [if_neg (by simp)]
    have h : hist.length - min hist.length (v :: rest).length
        = hist.length - (v :: rest).length := by omega
    rw [h]

theorem specTail_subset (hist : List HistoricalPoint) (fc : List ℚ) :
    specTail hist fc ⊆ hist := by
  unfold specTail
  exact List.drop_subset _ _

/-- C1: `calculateMAPE` aligns the last `min(len(historical), len(forecast))`
historical points with the forecast in order, skips pairs with zero actual
cost, and returns the mean of `|actual - predicted| / actual * 100` over
the remaining pairs (0 when none remain) — for cost values that are
non-negative as the data model requires. -/
theorem calculateMAPE_eq_spec (hist : List HistoricalPoint) (fc : List ℚ)
    (hpos : ∀ p ∈ hist, 0 ≤ p.cost) :
    calculateMAPE hist fc = specMAPE hist fc := by
  simp only [calculateMAPE, specMAPE]
  by_cases h0 : hist.length = 0
  · rw [if_pos h0]
    have hnil : hist = [] := List.length_eq_zero.mp h0
    subst hnil
    simp [specTail]
  · rw [if_neg h0, slice_zip]
    have hmap : (((specTail hist fc).zip fc).filter
          (fun p => decide (p.1.cost ≠ 0))).map
          (fun p => |(p.1.cost - p.2) / p.1.cost| * 100)
        = (((specTail hist fc).zip fc).filter
          (fun p => decide (p.1.cost ≠ 0))).map
          (fun p => |p.1.cost - p.2| / p.1.cost * 100) := by
      apply List.map_congr_left
      intro p hp
      have hpz : p.1.cost ≠ 0 := by simpa using List.of_mem_filter hp
      have hmem : p.1 ∈ hist := by
        obtain ⟨a, b⟩ := p
        have hz := List.of_mem_zip (List.mem_of_mem_filter hp)
        exact specTail_subset hist fc hz.1
      have hgt : 0 < p.1.cost := lt_of_le_of_ne (hpos _ hmem) (Ne.symm hpz)
      rw [abs_div, abs_of_pos hgt]
    rw [hmap]
    by_cases hc : (((specTail hist fc).zip fc).filter
        (fun p => decide (p.1.cost ≠ 0))).length = 0
    · rw [if_pos hc, if_neg (by omega)]
    · rw [if_neg hc, if_pos (by omega)]

theorem calculateMAPE_eq_spec_witness :
    (∀ p ∈ [HistoricalPoint.mk ⟨2024, 0, 1⟩ 100, HistoricalPoint.mk ⟨2024, 1, 1⟩ 110],
      0 ≤ p.cost)
    ∧ calculateMAPE [HistoricalPoint.mk ⟨2024, 0, 1⟩ 100, HistoricalPoint.mk ⟨2024, 1, 1⟩ 110]
        [105, 115]
      = specMAPE [HistoricalPoint.mk ⟨2024, 0, 1⟩ 100, HistoricalPoint.mk ⟨2024, 1, 1⟩ 110]
        [105, 115] :=
  ⟨by decide, calculateMAPE_eq_spec _ _ (by decide)⟩

/-- C2: `calculateRMSE` aligns the same trailing window as `calculateMAPE`,
includes zero-actual pairs, and returns the square root of the mean squared
error over the paired indices, 0 when there is no pair. -/
theorem calculateRMSE_eq_spec (hist : List HistoricalPoint) (fc : List ℚ) :
    calculateRMSE hist fc = specRMSE hist fc := by
  simp only [calculateRMSE, specRMSE]
  by_cases h0 : hist.length = 0
  · rw [if_pos h0]
    have hnil : hist = [] := List.length_eq_zero.mp h0
    subst hnil
    simp [specTail]
  · rw [if_neg h0, slice_zip]
    by_cases hc : ((specTail hist fc).zip fc).length = 0
    · rw [if_neg (by omega), if_pos hc]
    · rw [if_pos (by omega), if_neg hc]

/-- C7: both metrics return 0 on an empty historical series for every
forecast, and on an empty forecast for every historical series. -/
theorem metrics_vanish_on_empty_inputs :
    (∀ fc : List ℚ, calculateMAPE [] fc = 0)
    ∧ (∀ hist : List HistoricalPoint, calculateMAPE hist [] = 0)
    ∧ (∀ fc : List ℚ, calculateRMSE [] fc = 0)
    ∧ (∀ hist : List HistoricalPoint, calculateRMSE hist [] = 0) := by
  refine ⟨fun fc => ?_, fun hist => ?_, fun fc => ?_, fun hist => ?_⟩
  · simp [calculateMAPE]
  · simp [calculateMAPE]
  · simp [calculateRMSE]
  · simp [calculateRMSE]

theorem forecastPoints_length (fc : List ℚ) : ∀ c : JSDate,
    (forecastPoints c fc).length = fc.length := by
  induction fc with
  | nil => intro c; rfl
  | cons v rest ih =>
    intro c
    simp [forecastPoints, ih]

theorem forecastPoints_fields (fc : List ℚ) : ∀ c : JSDate,
    (forecastPoints c fc).map (fun p => (p.historical, p.forecast))
      = fc.map (fun v => ((none : Option ℚ), some v)) := by
  induction fc with
  | nil => intro c; rfl
  | cons v rest ih =>
    intro c
    simp [forecastPoints, ih]

/-- C6: `prepareChartData` emits `len(historical) + len(forecast)` points;
the first `len(historical)` carry the historical costs in order with the
forecast field absent, and the last `len(forecast)` carry the forecast
values in order with the historical field absent. -/
theorem prepareChartData_shape (now : JSDate) (hist : List HistoricalPoint)
    (fc : List ℚ) :
    (prepareChartData now hist fc).length = hist.length + fc.length
    ∧ ((prepareChartData now hist fc).take hist.length).map
        (fun p => (p.historical, p.forecast))
      = hist.map (fun item => (some item.cost, (none : Option ℚ)))
    ∧ ((prepareChartData now hist fc).drop hist.length).map
        (fun p => (p.historical, p.forecast))
      = fc.map (fun v => ((none : Option ℚ), some v)) := by
  simp only [prepareChartData]
  refine ⟨?_, ?_, ?_⟩
  · simp [forecastPoints_length]
  · rw [List.take_left' (by simp)]
    simp
  · rw [List.drop_left' (by simp)]
    exact forecastPoints_fields fc _

theorem daysInMonth_ge (y : Int) (m : Nat) : 28 ≤ daysInMonth y m := by
  unfold daysInMonth
  split_ifs <;> omega

theorem addOneMonthJS_of_day_le (c : JSDate) (hd : c.day ≤ 28) :
    addOneMonthJS c
      = if c.month = 11 then ⟨c.year + 1, 0, c.day⟩ else ⟨c.year, c.month + 1, c.day⟩ := by
  simp only [addOneMonthJS]
  rw [if_pos (le_trans hd (daysInMonth_ge _ _))]
  by_cases h : c.month = 11 <;> simp [h]

theorem labelNextMonth_addOne (c : JSDate) (hm : c.month < 12) (hd : c.day ≤ 28) :
    labelNextMonth (formatShortMonthYear c) (formatShortMonthYear (addOneMonthJS c)) := by
  rw [addOneMonthJS_of_day_le c hd]
  by_cases h : c.month = 11
  · constructor
    · simp [formatShortMonthYear, h]
    · simp only [formatShortMonthYear, h, if_pos]
      omega
  · have hlt : c.month + 1 < 12 := by omega
    constructor
    · simp [formatShortMonthYear, h, Nat.mod_eq_of_lt hlt]
    · simp [formatShortMonthYear, h]

theorem forecastPoints_label_chain (fc : List ℚ) : ∀ c : JSDate,
    c.month < 12 → c.day ≤ 28 →
    List.Chain labelNextMonth (formatShortMonthYear c)
      ((forecastPoints c fc).map (fun p => p.date)) := by
  induction fc with
  | nil =>
    intro c _ _
    exact List.Chain.nil
  | cons v rest ih =>
    intro c hm hd
    have hmonth : (addOneMonthJS c).month < 12 := by
      rw [addOneMonthJS_of_day_le c hd]
      by_cases h : c.month = 11
      · simp [h]
      · simp only [h, if_neg]
        simp
        omega
    have hday : (addOneMonthJS c).day ≤ 28 := by
      rw [addOneMonthJS_of_day_le c hd]
      by_cases h : c.month = 11 <;> simp [h, hd]
    simp only [forecastPoints, List.map_cons]
    exact List.Chain.cons (labelNextMonth_addOne c hm hd) (ih (addOneMonthJS c) hmonth hday)

/-- C3 (amended): for a non-empty historical series whose last timestamp has
a valid month and a day-of-month of at most 28 (a day every month has), the
label of the last historical timestamp followed by the forecast-point labels
forms a chain of consecutive calendar months: each forecast label is one
month after its predecessor, the first being one month after the month of
the last historical timestamp.  (When the day-of-month exceeds the length
of the month being entered — e.g. the 31st — JS `setMonth` overflow rolls
the cursor an extra month forward and the property fails.) -/
theorem prepareChartData_labels_one_month_apart (now : JSDate)
    (hist : List HistoricalPoint) (fc : List ℚ) (lastItem : HistoricalPoint)
    (hlast : hist.getLast? = some lastItem)
    (hm : lastItem.created_at.month < 12) (hd : lastItem.created_at.day ≤ 28) :
    List.Chain labelNextMonth (formatShortMonthYear lastItem.created_at)
      (((prepareChartData now hist fc).drop hist.length).map (fun p => p.date)) := by
  simp only [prepareChartData, hlast]
  rw [List.drop_left' (by simp)]
  exact forecastPoints_label_chain fc _ hm hd

theorem prepareChartData_labels_one_month_apart_witness :
    List.Chain labelNextMonth
      (formatShortMonthYear (JSDate.mk 2024 0 15))
      (((prepareChartData ⟨2024, 5, 1⟩ [HistoricalPoint.mk ⟨2024, 0, 15⟩ 100]
          [7, 8, 9]).drop 1).map (fun p => p.date)) :=
  prepareChartData_labels_one_month_apart ⟨2024, 5, 1⟩
    [HistoricalPoint.mk ⟨2024, 0, 15⟩ 100] [7, 8, 9]
    (HistoricalPoint.mk ⟨2024, 0, 15⟩ 100)
    (by decide) (by decide) (by decide)

/-- C3 (counterexample): with a single historical point stamped Jan 31 2023
and one forecast value, the forecast label is "Mar 23" — two calendar months
after the last historical month, because `setMonth` normalizes Feb 31 to
Mar 3 — so the first forecast label is not one month after the month of the
last historical timestamp. -/
theorem prepareChartData_label_skip_counterexample :
    ¬ labelNextMonth (formatShortMonthYear ⟨2023, 0, 31⟩)
      (((prepareChartData ⟨2024, 0, 1⟩ [HistoricalPoint.mk ⟨2023, 0, 31⟩ 100]
          [1]).map (fun p => p.date)).getD 1 (0, 0)) := by
  decide

/-- C8 (amended): `prepareChartData` is deterministic whenever the
historical series is non-empty — the output depends only on the historical
and forecast sequences, not on the current date.  (With an empty historical
series, the cursor is seeded from `new Date()`, the ambient clock, so two
calls on different dates can produce different outputs.) -/
theorem prepareChartData_deterministic (now1 now2 : JSDate)
    (hist : List HistoricalPoint) (fc : List ℚ) (hne : hist ≠ []) :
    prepareChartData now1 hist fc = prepareChartData now2 hist fc := by
  simp only [prepareChartData]
  rcases h : hist.getLast? with _ | lastItem
  · exact absurd (List.getLast?_eq_none_iff.mp h) hne
  · rfl

theorem prepareChartData_deterministic_witness :
    ([HistoricalPoint.mk ⟨2024, 0, 15⟩ 100] ≠ ([] : List HistoricalPoint))
    ∧ prepareChartData ⟨2024, 2, 1⟩ [HistoricalPoint.mk ⟨2024, 0, 15⟩ 100] [5]
      = prepareChartData ⟨2025, 7, 9⟩ [HistoricalPoint.mk ⟨2024, 0, 15⟩ 100] [5] :=
  ⟨by decide,
    prepareChartData_deterministic ⟨2024, 2, 1⟩ ⟨2025, 7, 9⟩
      [HistoricalPoint.mk ⟨2024, 0, 15⟩ 100] [5] (by decide)⟩

/-- C8 (counterexample): with an empty historical series the output is
seeded from the current date, so two calls with identical historical and
forecast sequences made at different current dates disagree — the function
is not independent of hidden state in that case. -/
theorem prepareChartData_clock_counterexample :
    prepareChartData ⟨2024, 0, 15⟩ [] [5] ≠ prepareChartData ⟨2024, 5, 15⟩ [] [5] := by
  decide

/-- C4: `calculateStats` returns `none` exactly when the historical series
is empty, the forecast series is empty, or the forecasted cost is absent;
any returned value has `percentChange = (forecastAvg - historicalAvg) /
historicalAvg * 100` with the two averages being the arithmetic means of
the forecast values and the historical prices. -/
theorem calculateStats_spec (hd : List PricePoint) (fs : List ℚ) (oc : Option ℚ) :
    (calculateStats hd fs oc = none ↔ hd = [] ∨ fs = [] ∨ oc = none)
    ∧ ∀ s, calculateStats hd fs oc = some s →
        s.percentChange = (listMean fs - histMean hd) / histMean hd * 100 := by
  simp only [calculateStats]
  by_cases h : hd.length = 0 ∨ fs.length = 0 ∨ oc = none
  · rw [if_pos h]
    refine ⟨⟨fun _ => ?_, fun _ => rfl⟩, fun s hs => by cases hs⟩
    simpa [List.length_eq_zero] using h
  · rw [if_neg h]
    constructor
    · simp only [List.length_eq_zero] at h
      simp [h]
    · intro s hs
      have hfield := congrArg (Option.map (fun r => r.percentChange)) hs
      simp only [Option.map_some] at hfield
      have : s.percentChange
          = (fs.sum / (fs.length : ℚ)
              - (hd.map (fun item => item.price)).sum / (hd.length : ℚ))
            / ((hd.map (fun item => item.price)).sum / (hd.length : ℚ)) * 100 :=
        (Option.some.injEq _ _ ▸ hfield).symm
      rw [this]
      simp [listMean, histMean]

theorem calculateStats_spec_witness :
    (calculateStats [PricePoint.mk 2] [4] (some 4) = none
      ↔ [PricePoint.mk 2] = [] ∨ ([4] : List ℚ) = [] ∨ (some (4 : ℚ)) = none)
    ∧ ReportStats.percentChange ⟨2, 4, 100, 2, 4⟩
      = (listMean [4] - histMean [PricePoint.mk 2]) / histMean [PricePoint.mk 2] * 100 :=
  ⟨(calculateStats_spec [PricePoint.mk 2] [4] (some 4)).1,
    (calculateStats_spec [PricePoint.mk 2] [4] (some 4)).2 ⟨2, 4, 100, 2, 4⟩
      (by simp [calculateStats]; norm_num)⟩

/-- C5 (amended): `calculateStats` performs no check for a zero historical
average.  When the historical and forecast series are non-empty and the
historical prices average to zero, it still returns a defined statistics
record whose `percentChange` is the unguarded quotient
`(forecastAvg - historicalAvg) / historicalAvg * 100` — a division by zero
that JS floating point renders as Infinity or NaN (and the rational
embedding as 0) — rather than reporting a sentinel. -/
theorem calculateStats_no_zero_guard (hd : List PricePoint) (fs : List ℚ) (c : ℚ)
    (h1 : hd ≠ []) (h2 : fs ≠ []) (h0 : histMean hd = 0) :
    ∃ s, calculateStats hd fs (some c) = some s
      ∧ s.percentChange = (listMean fs - histMean hd) / histMean hd * 100
      ∧ s.historicalAvg = 0 := by
  have hmean : (hd.map (fun item => item.price)).sum / (hd.length : ℚ) = histMean hd := by
    simp [histMean, listMean]
  have heq : calculateStats hd fs (some c)
      = some { lastHistorical := ((hd.getLast?).map (fun item => item.price)).getD 0
               lastForecast := c
               percentChange := (fs.sum / (fs.length : ℚ)
                   - (hd.map (fun item => item.price)).sum / (hd.length : ℚ))
                 / ((hd.map (fun item => item.price)).sum / (hd.length : ℚ)) * 100
               historicalAvg := (hd.map (fun item => item.price)).sum / (hd.length : ℚ)
               forecastAvg := fs.sum / (fs.length : ℚ) } := by
    simp only [calculateStats]
    rw [if_neg (by simp [List.length_eq_zero, h1, h2])]
    rfl
  refine ⟨_, heq, ?_, ?_⟩
  · dsimp only
    rw [hmean]
    rfl
  · dsimp only
    rw [hmean, h0]

theorem calculateStats_no_zero_guard_witness :
    ([PricePoint.mk 0] ≠ ([] : List PricePoint))
    ∧ (([10] : List ℚ) ≠ [])
    ∧ histMean [PricePoint.mk 0] = 0
    ∧ ∃ s, calculateStats [PricePoint.mk 0] [10] (some 10) = some s
        ∧ s.percentChange
          = (listMean [10] - histMean [PricePoint.mk 0]) / histMean [PricePoint.mk 0] * 100
        ∧ s.historicalAvg = 0 :=
  ⟨by decide, by decide, by simp [histMean, listMean],
    calculateStats_no_zero_guard [PricePoint.mk 0] [10] 10
      (by decide) (by decide) (by simp [histMean, listMean])⟩

/-- C5 (counterexample): at a historical series averaging to zero (with the
other preconditions met) `calculateStats` does not report the absent
sentinel — it returns a fully defined record, whose `percentChange` field
carries the unguarded division-by-zero result (0 under the rational
convention; Infinity in JS). -/
theorem calculateStats_zero_avg_counterexample :
    histMean [PricePoint.mk 0] = 0
    ∧ calculateStats [PricePoint.mk 0] [10] (some 10) ≠ none
    ∧ calculateStats [PricePoint.mk 0] [10] (some 10)
      = some { lastHistorical := 0, lastForecast := 10, percentChange := 0
               historicalAvg := 0, forecastAvg := 10 } := by
  refine ⟨by simp [histMean, listMean], ?_, ?_⟩
  · simp [calculateStats]
  · simp [calculateStats]

/-- C10: a forecasted cost of 0 is treated as present — the absence guard
compares against `null` specifically, so with non-empty inputs
`calculateStats` returns a defined record whose `lastForecast` is 0. -/
theorem calculateStats_zero_forecastedCost (hd : List PricePoint) (fs : List ℚ)
    (h1 : hd ≠ []) (h2 : fs ≠ []) :
    ∃ s, calculateStats hd fs (some 0) = some s ∧ s.lastForecast = 0 := by
  have heq : calculateStats hd fs (some 0)
      = some { lastHistorical := ((hd.getLast?).map (fun item => item.price)).getD 0
               lastForecast := 0
               percentChange := (fs.sum / (fs.length : ℚ)
                   - (hd.map (fun item => item.price)).sum / (hd.length : ℚ))
                 / ((hd.map (fun item => item.price)).sum / (hd.length : ℚ)) * 100
               historicalAvg := (hd.map (fun item => item.price)).sum / (hd.length : ℚ)
               forecastAvg := fs.sum / (fs.length : ℚ) } := by
    simp only [calculateStats]
    rw [if_neg (by simp [List.length_eq_zero, h1, h2])]
    rfl
  exact ⟨_, heq, rfl⟩

theorem calculateStats_zero_forecastedCost_witness :
    ([PricePoint.mk 1] ≠ ([] : List PricePoint))
    ∧ (([2] : List ℚ) ≠ [])
    ∧ ∃ s, calculateStats [PricePoint.mk 1] [2] (some 0) = some s ∧ s.lastForecast = 0 :=
  ⟨by decide, by decide,
    calculateStats_zero_forecastedCost [PricePoint.mk 1] [2] (by decide) (by decide)⟩

theorem sliceNeg_map {α β : Type} (f : α → β) (l : List α) (n : Nat) :
    sliceNeg (l.map f) n = (sliceNeg l n).map f := by
  unfold sliceNeg
  by_cases h : n = 0
  · simp [h]
  · rw [if_neg h, if_neg h, List.length_map, List.map_drop]

/-- C9: `calculateMAPE` is invariant under multiplying every historical cost
and every forecast value by the same positive constant: the zero-skip set is
preserved (`c * actual = 0` iff `actual = 0`) and each percentage error is
unchanged. -/
theorem calculateMAPE_scale_invariant (hist : List HistoricalPoint) (fc : List ℚ)
    (c : ℚ) (hc : 0 < c) :
    calculateMAPE (hist.map (fun p => { created_at := p.created_at, cost := c * p.cost }))
      (fc.map (fun v => c * v)) = calculateMAPE hist fc := by
  have hcne : c ≠ 0 := ne_of_gt hc
  simp only [calculateMAPE, List.length_map]
  by_cases h0 : hist.length = 0
  · rw [if_pos h0, if_pos h0]
  · rw [if_neg h0, if_neg h0]
    rw [sliceNeg_map, List.zip_map, List.filter_map]
    have hpred : ((fun p : HistoricalPoint × ℚ => decide (p.1.cost ≠ 0)) ∘
        Prod.map (fun p : HistoricalPoint => { created_at := p.created_at, cost := c * p.cost })
          (fun v => c * v))
        = (fun p : HistoricalPoint × ℚ => decide (p.1.cost ≠ 0)) := by
      funext p
      show decide (c * p.1.cost ≠ 0) = decide (p.1.cost ≠ 0)
      apply decide_eq_decide.mpr
      constructor
      · intro h hz
        exact h (by rw [hz, mul_zero])
      · intro h
        exact mul_ne_zero hcne h
    rw [hpred, List.map_map, List.length_map]
    have hsum : (((sliceNeg hist fc.length).zip fc).filter
          (fun p => decide (p.1.cost ≠ 0))).map
          ((fun p : HistoricalPoint × ℚ => |(p.1.cost - p.2) / p.1.cost| * 100) ∘
            Prod.map (fun p : HistoricalPoint =>
              { created_at := p.created_at, cost := c * p.cost }) (fun v => c * v))
        = (((sliceNeg hist fc.length).zip fc).filter
          (fun p => decide (p.1.cost ≠ 0))).map
          (fun p : HistoricalPoint × ℚ => |(p.1.cost - p.2) / p.1.cost| * 100) := by
      apply List.map_congr_left
      intro p _
      show |(c * p.1.cost - c * p.2) / (c * p.1.cost)| * 100
        = |(p.1.cost - p.2) / p.1.cost| * 100
      rw [← mul_sub, mul_div_mul_left _ _ hcne]
    rw [hsum]

theorem calculateMAPE_scale_invariant_witness :
    (0 : ℚ) < 2
    ∧ calculateMAPE
        ([HistoricalPoint.mk ⟨2024, 0, 1⟩ 100, HistoricalPoint.mk ⟨2024, 1, 1⟩ 110].map
          (fun p => { created_at := p.created_at, cost := 2 * p.cost }))
        (([105, 115] : List ℚ).map (fun v => 2 * v))
      = calculateMAPE [HistoricalPoint.mk ⟨2024, 0, 1⟩ 100, HistoricalPoint.mk ⟨2024, 1, 1⟩ 110]
        [105, 115] :=
  ⟨by norm_num,
    calculateMAPE_scale_invariant
      [HistoricalPoint.mk ⟨2024, 0, 1⟩ 100, HistoricalPoint.mk ⟨2024, 1, 1⟩ 110]
      [105, 115] 2 (by norm_num)⟩
